import Mathlib

/-!
Verification of `src/Xbim.Geometry.Engine/BRep/XLocation.cpp`: the
`XLocation::Multiplied` and `XLocation::ScaledBy` binding shim over the
native transform kernel.

The shim delegates all transform arithmetic to the kernel type `gp_Trsf`
(and the `Ref()` accessor / `IsIdentity` property declared in
`XLocation.h`), none of which is under `src/`; those parts are modelled
from the spec, as marked in their doc comments.  The two method bodies in
`XLocation.cpp` are translated verbatim, with the managed heap made
explicit so that `gcnew` allocation, object identity and (im)mutability
are expressible.
-/

namespace XbimGeometry

/-- Modelled from the spec: the Transform Kernel's transform value type
(`gp_Trsf` / `TopLoc_Location` are not under `src/`).  Per the spec's data
model, a transform is an affine map on 3-space: a linear part (rotation
and optional uniform scale) plus a translation; we work over `ℚ` so that
equality of transforms is decidable. -/
structure gp_Trsf where
  matrix : Matrix (Fin 3) (Fin 3) ℚ
  loc : Fin 3 → ℚ
deriving DecidableEq

/-- Modelled from the spec: kernel identity-construction (`gp_Trsf`'s
default constructor yields the identity transform). -/
def gp_Trsf.idTrsf : gp_Trsf := ⟨1, 0⟩

/-- Modelled from the spec: the kernel's uniform-scale-factor setter.
Applied to the identity transform it yields the pure uniform scaling by
`s` (for `s = 0` the degenerate transform collapsing everything to the
origin). -/
def gp_Trsf.SetScaleFactor (t : gp_Trsf) (s : ℚ) : gp_Trsf :=
  ⟨s • t.matrix, t.loc⟩

/-- Modelled from the spec: the kernel's binary composition operator
`X.Multiplied(Y)` with the fixed application order stated by the spec —
in `other.transform.Multiplied(this.transform)` the receiver `other` is
applied first, so `X.Multiplied(Y)` is the affine map `Y ∘ X`. -/
def gp_Trsf.Multiplied (x y : gp_Trsf) : gp_Trsf :=
  ⟨y.matrix * x.matrix, y.matrix.mulVec x.loc + y.loc⟩

/-- Modelled from the spec: the kernel's identity-predicate on transform
values (`IsIdentity` is declared in `XLocation.h`, not under `src/`):
true exactly when the transform is the identity transform. -/
def gp_Trsf.IsIdentity (t : gp_Trsf) : Bool := decide (t = gp_Trsf.idTrsf)

/-- The managed heap of `XLocation` objects.  Each `XLocation` object
owns exactly one transform (its `Ref()`), so an object is represented by
its transform and identified by its index in the allocation list. -/
structure Heap where
  objs : List gp_Trsf
deriving DecidableEq

/-- A managed `IXLocation^` reference as received by `Multiplied`:
`nullRef` is `nullptr`; `foreignRef` is a non-null `IXLocation` whose
`dynamic_cast<XLocation^>` fails (the tag stands for whatever foreign
implementation it is — `Multiplied` never inspects it); `nativeRef id`
is a reference to the `XLocation` object at heap index `id`. -/
inductive IXRef where
  | nullRef : IXRef
  | foreignRef : Nat → IXRef
  | nativeRef : Nat → IXRef
deriving DecidableEq

/-- `Ref()` of the `XLocation` object at heap index `id` (out-of-range
indices never arise for valid references; they default to the identity). -/
def Heap.refOf (h : Heap) (id : Nat) : gp_Trsf :=
  h.objs.getD id gp_Trsf.idTrsf

/-- `gcnew XLocation(t)`: allocate a fresh `XLocation` object wrapping
transform `t`, returning the extended heap and the fresh object's index. -/
def Heap.gcnewXLocation (h : Heap) (t : gp_Trsf) : Heap × Nat :=
  (⟨h.objs ++ [t]⟩, h.objs.length)

/-- `XLocation::Multiplied` translated from `XLocation.cpp` lines 3–8:
`dynamic_cast` the argument; if the argument is null, or the cast fails,
or the argument's transform `IsIdentity`, return
`gcnew XLocation(Ref())`; otherwise return
`gcnew XLocation(xbimLoc->Ref().Multiplied(Ref()))`. -/
def Multiplied (h : Heap) (this : Nat) (location : IXRef) : Heap × IXRef :=
  match location with
  | IXRef.nullRef =>
      let p := h.gcnewXLocation (h.refOf this)
      (p.1, IXRef.nativeRef p.2)
  | IXRef.foreignRef _ =>
      let p := h.gcnewXLocation (h.refOf this)
      (p.1, IXRef.nativeRef p.2)
  | IXRef.nativeRef xbimLoc =>
      if (h.refOf xbimLoc).IsIdentity then
        let p := h.gcnewXLocation (h.refOf this)
        (p.1, IXRef.nativeRef p.2)
      else
        let p := h.gcnewXLocation ((h.refOf xbimLoc).Multiplied (h.refOf this))
        (p.1, IXRef.nativeRef p.2)

/-- `XLocation::ScaledBy` translated from `XLocation.cpp` lines 10–15:
default-construct a `gp_Trsf` (identity), call `SetScaleFactor(scale)`
on it, and return `gcnew XLocation(Ref().Multiplied(scaler))`. -/
def ScaledBy (h : Heap) (this : Nat) (scale : ℚ) : Heap × IXRef :=
  let scaler := gp_Trsf.idTrsf.SetScaleFactor scale
  let p := h.gcnewXLocation ((h.refOf this).Multiplied scaler)
  (p.1, IXRef.nativeRef p.2)

/-- Allocation leaves every previously allocated object's transform
unchanged. -/
theorem Heap.refOf_gcnew_old (h : Heap) (t : gp_Trsf) (j : Nat)
    (hj : j < h.objs.length) :
    (h.gcnewXLocation t).1.refOf j = h.refOf j := by
  simp only [Heap.gcnewXLocation, Heap.refOf]
  exact List.getD_append h.objs [t] gp_Trsf.idTrsf j hj

/-- The freshly allocated object wraps exactly the requested transform. -/
theorem Heap.refOf_gcnew_new (h : Heap) (t : gp_Trsf) :
    (h.gcnewXLocation t).1.refOf h.objs.length = t := by
  simp only [Heap.gcnewXLocation, Heap.refOf]
  rw [List.getD_append_right h.objs [t] gp_Trsf.idTrsf h.objs.length le_rfl]
  simp

/-- Composing any transform with the unit-scale scaler on the right is a
no-op in the modelled kernel. -/
theorem gp_Trsf.multiplied_scaler_one (t : gp_Trsf) :
    t.Multiplied (gp_Trsf.idTrsf.SetScaleFactor 1) = t := by
  cases t with
  | mk m l =>
    simp [gp_Trsf.Multiplied, gp_Trsf.SetScaleFactor, gp_Trsf.idTrsf,
      Matrix.one_mulVec]

/-- Scaling by `s` then by `s⁻¹` returns the original transform in the
modelled kernel, for `s ≠ 0`. -/
theorem gp_Trsf.multiplied_scaler_cancel (t : gp_Trsf) (s : ℚ) (hs : s ≠ 0) :
    (t.Multiplied (gp_Trsf.idTrsf.SetScaleFactor s)).Multiplied
      (gp_Trsf.idTrsf.SetScaleFactor (1 / s)) = t := by
  cases t with
  | mk m l =>
    simp only [gp_Trsf.Multiplied, gp_Trsf.SetScaleFactor, gp_Trsf.idTrsf,
      Matrix.smul_mul, Matrix.one_mul, Matrix.smul_mulVec_assoc,
      Matrix.one_mulVec, add_zero, smul_smul, one_div]
    rw [inv_mul_cancel₀ hs]
    simp

/-- C1: with a non-null, native-backed, non-identity argument `B`,
`A.Multiplied(B)` returns a freshly allocated Location wrapping exactly
`B.transform.Multiplied(A.transform)` — the argument's transform composed
with the receiver's in that order — and not
`A.transform.Multiplied(B.transform)` whenever the two compositions
differ. -/
theorem multiplied_composition_order (h : Heap) (A B : Nat)
    (hB : (h.refOf B).IsIdentity = false) :
    (Multiplied h A (IXRef.nativeRef B)).2 = IXRef.nativeRef h.objs.length ∧
    (Multiplied h A (IXRef.nativeRef B)).1.refOf h.objs.length
      = (h.refOf B).Multiplied (h.refOf A) ∧
    ((h.refOf B).Multiplied (h.refOf A) ≠ (h.refOf A).Multiplied (h.refOf B) →
      (Multiplied h A (IXRef.nativeRef B)).1.refOf h.objs.length
        ≠ (h.refOf A).Multiplied (h.refOf B)) := by
  simp only [Multiplied, hB, Bool.false_eq_true, if_false]
  refine ⟨rfl, Heap.refOf_gcnew_new h _, fun hne => ?_⟩
  rw [Heap.refOf_gcnew_new h _]
  exact hne

/-- C2: if the argument to `Multiplied` is null, or not castable to the
native-backed `XLocation` variant, or wraps the identity transform, the
result is a freshly allocated Location wrapping the receiver's own
transform unchanged; the translated function is total, so no exception
is thrown in any of these cases. -/
theorem multiplied_noop_branches (h : Heap) (L : Nat) (arg : IXRef)
    (harg : arg = IXRef.nullRef ∨ (∃ tag, arg = IXRef.foreignRef tag) ∨
      (∃ i, arg = IXRef.nativeRef i ∧ (h.refOf i).IsIdentity = true)) :
    (Multiplied h L arg).2 = IXRef.nativeRef h.objs.length ∧
    (Multiplied h L arg).1.refOf h.objs.length = h.refOf L := by
  rcases harg with rfl | ⟨tag, rfl⟩ | ⟨i, rfl, hid⟩
  · exact ⟨rfl, Heap.refOf_gcnew_new h _⟩
  · exact ⟨rfl, Heap.refOf_gcnew_new h _⟩
  · simp only [Multiplied, hid, if_true]
    exact ⟨rfl, Heap.refOf_gcnew_new h _⟩

/-- C3: `ScaledBy` builds a fresh identity-based scaler with uniform
scale factor `scale`, composes it as
`this.transform.Multiplied(scaler)`, and returns the result wrapped in a
freshly allocated Location. -/
theorem scaledBy_composes_scaler (h : Heap) (L : Nat) (scale : ℚ) :
    (ScaledBy h L scale).2 = IXRef.nativeRef h.objs.length ∧
    (ScaledBy h L scale).1.refOf h.objs.length
      = (h.refOf L).Multiplied (gp_Trsf.idTrsf.SetScaleFactor scale) :=
  ⟨rfl, Heap.refOf_gcnew_new h _⟩

/-- C4: `ScaledBy(0)` does not fail at this layer: it returns a Location
wrapping the degenerate transform the kernel produces (zero linear
part); more generally every scale value — zero or negative included — is
passed to the kernel unvalidated and the translated function is total,
raising no error of its own. -/
theorem scaledBy_no_validation (h : Heap) (L : Nat) (scale : ℚ) :
    ((ScaledBy h L 0).2 = IXRef.nativeRef h.objs.length ∧
     (ScaledBy h L 0).1.refOf h.objs.length
       = (h.refOf L).Multiplied (gp_Trsf.idTrsf.SetScaleFactor 0) ∧
     (gp_Trsf.idTrsf.SetScaleFactor 0).matrix = 0) ∧
    (ScaledBy h L scale).2 = IXRef.nativeRef h.objs.length ∧
    (ScaledBy h L scale).1.refOf h.objs.length
      = (h.refOf L).Multiplied (gp_Trsf.idTrsf.SetScaleFactor scale) := by
  refine ⟨⟨rfl, Heap.refOf_gcnew_new h _, ?_⟩, rfl, Heap.refOf_gcnew_new h _⟩
  simp [gp_Trsf.SetScaleFactor]

/-- C5: a Location is immutable: `Multiplied` and `ScaledBy` leave the
receiver's wrapped transform unchanged on the heap and return a
reference to a new object, never to the receiver itself. -/
theorem location_immutable (h : Heap) (L : Nat) (arg : IXRef) (scale : ℚ)
    (hL : L < h.objs.length) :
    (Multiplied h L arg).1.refOf L = h.refOf L ∧
    (ScaledBy h L scale).1.refOf L = h.refOf L ∧
    (Multiplied h L arg).2 ≠ IXRef.nativeRef L ∧
    (ScaledBy h L scale).2 ≠ IXRef.nativeRef L := by
  have hfresh : IXRef.nativeRef h.objs.length ≠ IXRef.nativeRef L := by
    intro hcontra
    exact absurd (IXRef.nativeRef.inj hcontra) (Nat.ne_of_gt hL)
  refine ⟨?_, Heap.refOf_gcnew_old h _ L hL, ?_, hfresh⟩
  · cases arg with
    | nullRef => exact Heap.refOf_gcnew_old h _ L hL
    | foreignRef tag => exact Heap.refOf_gcnew_old h _ L hL
    | nativeRef i =>
      simp only [Multiplied]
      by_cases hid : (h.refOf i).IsIdentity
      · simp only [hid, if_true]
        exact Heap.refOf_gcnew_old h _ L hL
      · simp only [hid, if_false]
        exact Heap.refOf_gcnew_old h _ L hL
  · cases arg with
    | nullRef => exact hfresh
    | foreignRef tag => exact hfresh
    | nativeRef i =>
      simp only [Multiplied]
      by_cases hid : (h.refOf i).IsIdentity
      · simp only [hid, if_true]; exact hfresh
      · simp only [hid, if_false]; exact hfresh

/-- C6: `ScaledBy(1)` yields a Location whose wrapped transform equals
the receiver's original transform exactly. -/
theorem scaledBy_one_identity (h : Heap) (L : Nat) :
    (ScaledBy h L 1).2 = IXRef.nativeRef h.objs.length ∧
    (ScaledBy h L 1).1.refOf h.objs.length = h.refOf L := by
  refine ⟨rfl, ?_⟩
  rw [show (ScaledBy h L 1).1
      = (h.gcnewXLocation ((h.refOf L).Multiplied
          (gp_Trsf.idTrsf.SetScaleFactor 1))).1 from rfl]
  rw [Heap.refOf_gcnew_new h _]
  exact gp_Trsf.multiplied_scaler_one (h.refOf L)

/-- C7: for `s ≠ 0`, `L.ScaledBy(s).ScaledBy(1/s)` yields a Location
whose wrapped transform equals the receiver's original transform (the
composition of the two scalers cancels exactly over `ℚ`). -/
theorem scaledBy_roundtrip (h : Heap) (L : Nat) (s : ℚ) (hs : s ≠ 0) :
    (ScaledBy (ScaledBy h L s).1 h.objs.length (1 / s)).2
      = IXRef.nativeRef (h.objs.length + 1) ∧
    (ScaledBy (ScaledBy h L s).1 h.objs.length (1 / s)).1.refOf
        (h.objs.length + 1)
      = h.refOf L := by
  have hlen : (ScaledBy h L s).1.objs.length = h.objs.length + 1 := by
    simp [ScaledBy, Heap.gcnewXLocation]
  have hmid : (ScaledBy h L s).1.refOf h.objs.length
      = (h.refOf L).Multiplied (gp_Trsf.idTrsf.SetScaleFactor s) :=
    Heap.refOf_gcnew_new h _
  constructor
  · show IXRef.nativeRef (ScaledBy h L s).1.objs.length
      = IXRef.nativeRef (h.objs.length + 1)
    rw [hlen]
  · show ((ScaledBy h L s).1.gcnewXLocation
        (((ScaledBy h L s).1.refOf h.objs.length).Multiplied
          (gp_Trsf.idTrsf.SetScaleFactor (1 / s)))).1.refOf
        (h.objs.length + 1) = h.refOf L
    rw [← hlen, Heap.refOf_gcnew_new _ _, hmid]
    exact gp_Trsf.multiplied_scaler_cancel (h.refOf L) s hs

/-- C8: `Multiplied` and `ScaledBy` never return null: in every branch
the result is a freshly allocated Location, distinct from the receiver
and from any valid native argument. -/
theorem results_fresh_never_null (h : Heap) (L : Nat) (arg : IXRef)
    (scale : ℚ) (hL : L < h.objs.length) :
    (Multiplied h L arg).2 ≠ IXRef.nullRef ∧
    (ScaledBy h L scale).2 ≠ IXRef.nullRef ∧
    (Multiplied h L arg).2 ≠ IXRef.nativeRef L ∧
    (ScaledBy h L scale).2 ≠ IXRef.nativeRef L ∧
    (∀ a, arg = IXRef.nativeRef a → a < h.objs.length →
      (Multiplied h L arg).2 ≠ IXRef.nativeRef a) := by
  have hres : (Multiplied h L arg).2 = IXRef.nativeRef h.objs.length := by
    cases arg with
    | nullRef => rfl
    | foreignRef tag => rfl
    | nativeRef i =>
      simp only [Multiplied]
      by_cases hid : (h.refOf i).IsIdentity
      · simp only [hid, if_true]
        rfl
      · simp only [hid, Bool.false_eq_true, if_false]
        rfl
  refine ⟨?_, ?_, ?_, ?_, ?_⟩
  · rw [hres]; intro hcontra; cases hcontra
  · intro hcontra; cases hcontra
  · rw [hres]; intro hcontra
    exact absurd (IXRef.nativeRef.inj hcontra) (Nat.ne_of_gt hL)
  · intro hcontra
    exact absurd (IXRef.nativeRef.inj hcontra) (Nat.ne_of_gt hL)
  · intro a _ ha hcontra
    rw [hres] at hcontra
    exact absurd (IXRef.nativeRef.inj hcontra) (Nat.ne_of_gt ha)

/-- C9: `Multiplied` never mutates its argument: a valid native
argument's wrapped transform, and hence its `IsIdentity` property, is
unchanged on the heap after the call, in both the short-circuit and the
composition branch. -/
theorem multiplied_preserves_argument (h : Heap) (L B : Nat)
    (hB : B < h.objs.length) :
    (Multiplied h L (IXRef.nativeRef B)).1.refOf B = h.refOf B ∧
    ((Multiplied h L (IXRef.nativeRef B)).1.refOf B).IsIdentity
      = (h.refOf B).IsIdentity := by
  have hkeep : (Multiplied h L (IXRef.nativeRef B)).1.refOf B = h.refOf B := by
    simp only [Multiplied]
    by_cases hid : (h.refOf B).IsIdentity
    · simp only [hid, if_true]
      exact Heap.refOf_gcnew_old h _ B hB
    · simp only [hid, if_false]
      exact Heap.refOf_gcnew_old h _ B hB
  exact ⟨hkeep, by rw [hkeep]⟩

/-- C10: both operations are deterministic functions of the wrapped
transforms alone: calls on receivers wrapping equal transforms, with
arguments that are both null/incompatible or wrap equal transforms (and
equal scales), produce result Locations wrapping equal transforms. -/
theorem operations_deterministic (h1 h2 : Heap) (L1 L2 : Nat)
    (a1 a2 : IXRef) (s1 s2 : ℚ)
    (hrecv : h1.refOf L1 = h2.refOf L2)
    (hargs : ((a1 = IXRef.nullRef ∨ ∃ t, a1 = IXRef.foreignRef t) ∧
              (a2 = IXRef.nullRef ∨ ∃ t, a2 = IXRef.foreignRef t)) ∨
             (∃ i j, a1 = IXRef.nativeRef i ∧ a2 = IXRef.nativeRef j ∧
               h1.refOf i = h2.refOf j))
    (hs : s1 = s2) :
    (Multiplied h1 L1 a1).1.refOf h1.objs.length
      = (Multiplied h2 L2 a2).1.refOf h2.objs.length ∧
    (ScaledBy h1 L1 s1).1.refOf h1.objs.length
      = (ScaledBy h2 L2 s2).1.refOf h2.objs.length := by
  constructor
  · have noop : ∀ (h : Heap) (L : Nat) (a : IXRef),
        (a = IXRef.nullRef ∨ ∃ t, a = IXRef.foreignRef t) →
        (Multiplied h L a).1.refOf h.objs.length = h.refOf L := by
      intro h L a ha
      rcases ha with rfl | ⟨t, rfl⟩
      · exact Heap.refOf_gcnew_new h _
      · exact Heap.refOf_gcnew_new h _
    rcases hargs with ⟨ha1, ha2⟩ | ⟨i, j, rfl, rfl, hij⟩
    · rw [noop h1 L1 a1 ha1, noop h2 L2 a2 ha2, hrecv]
    · simp only [Multiplied, hij, hrecv]
      by_cases hid : (h2.refOf j).IsIdentity
      · simp only [hid, if_true]
        rw [Heap.refOf_gcnew_new h1 _, Heap.refOf_gcnew_new h2 _]
      · simp only [hid, Bool.false_eq_true, if_false]
        rw [Heap.refOf_gcnew_new h1 _, Heap.refOf_gcnew_new h2 _]
  · subst hs
    show (h1.gcnewXLocation ((h1.refOf L1).Multiplied
        (gp_Trsf.idTrsf.SetScaleFactor s1))).1.refOf h1.objs.length
      = (h2.gcnewXLocation ((h2.refOf L2).Multiplied
        (gp_Trsf.idTrsf.SetScaleFactor s1))).1.refOf h2.objs.length
    rw [Heap.refOf_gcnew_new h1 _, Heap.refOf_gcnew_new h2 _, hrecv]

/-! Concrete witness data: a translation, a uniform scaling, and heaps
holding them. -/

/-- Translation by `(1, 1, 1)`. -/
def trTranslate : gp_Trsf := ⟨1, fun _ => 1⟩

/-- Uniform scaling by `2`. -/
def trScale2 : gp_Trsf := ⟨(2 : ℚ) • 1, 0⟩

/-- A heap with two `XLocation` objects: a translation at index `0` and
a scaling at index `1`. -/
def hWitness : Heap := ⟨[trTranslate, trScale2]⟩

/-- A heap with the same translation at index `0` only. -/
def hWitnessSmall : Heap := ⟨[trTranslate]⟩

theorem trScale2_ne_id : trScale2 ≠ gp_Trsf.idTrsf := by
  intro hcontra
  have h00 := congrFun (congrFun (congrArg gp_Trsf.matrix hcontra) 0) 0
  simp [trScale2, gp_Trsf.idTrsf, Matrix.smul_apply, Matrix.one_apply_eq]
    at h00

theorem trScale2_not_identity : trScale2.IsIdentity = false := by
  simp only [gp_Trsf.IsIdentity, decide_eq_false_iff_not]
  exact trScale2_ne_id

/-- The two witness transforms do not commute under the modelled kernel
composition, so the inner implication of the C1 theorem is not vacuous
at the witness. -/
theorem trsf_noncomm :
    trScale2.Multiplied trTranslate ≠ trTranslate.Multiplied trScale2 := by
  intro hcontra
  have h0 := congrFun (congrArg gp_Trsf.loc hcontra) 0
  simp [gp_Trsf.Multiplied, trScale2, trTranslate, Matrix.one_mulVec,
    Matrix.smul_mulVec_assoc, Matrix.mulVec_zero, Pi.add_apply,
    Pi.smul_apply] at h0

/-- Witness for C1 at the concrete heap: receiver `0` (translation),
argument `1` (scaling by `2`, not the identity). -/
theorem multiplied_composition_order_witness :
    (hWitness.refOf 1).IsIdentity = false ∧
    ((Multiplied hWitness 0 (IXRef.nativeRef 1)).2
        = IXRef.nativeRef hWitness.objs.length ∧
     (Multiplied hWitness 0 (IXRef.nativeRef 1)).1.refOf hWitness.objs.length
       = (hWitness.refOf 1).Multiplied (hWitness.refOf 0) ∧
     ((hWitness.refOf 1).Multiplied (hWitness.refOf 0)
         ≠ (hWitness.refOf 0).Multiplied (hWitness.refOf 1) →
       (Multiplied hWitness 0 (IXRef.nativeRef 1)).1.refOf hWitness.objs.length
         ≠ (hWitness.refOf 0).Multiplied (hWitness.refOf 1))) :=
  ⟨trScale2_not_identity,
    multiplied_composition_order hWitness 0 1 trScale2_not_identity⟩

/-- Witness for C2 at the concrete heap with a null argument. -/
theorem multiplied_noop_branches_witness :
    (IXRef.nullRef = IXRef.nullRef ∨
      (∃ tag, IXRef.nullRef = IXRef.foreignRef tag) ∨
      (∃ i, IXRef.nullRef = IXRef.nativeRef i ∧
        (hWitness.refOf i).IsIdentity = true)) ∧
    ((Multiplied hWitness 0 IXRef.nullRef).2
        = IXRef.nativeRef hWitness.objs.length ∧
     (Multiplied hWitness 0 IXRef.nullRef).1.refOf hWitness.objs.length
       = hWitness.refOf 0) :=
  ⟨Or.inl rfl,
    multiplied_noop_branches hWitness 0 IXRef.nullRef (Or.inl rfl)⟩

/-- Witness for C5 at the concrete heap. -/
theorem location_immutable_witness :
    0 < hWitness.objs.length ∧
    ((Multiplied hWitness 0 IXRef.nullRef).1.refOf 0 = hWitness.refOf 0 ∧
     (ScaledBy hWitness 0 2).1.refOf 0 = hWitness.refOf 0 ∧
     (Multiplied hWitness 0 IXRef.nullRef).2 ≠ IXRef.nativeRef 0 ∧
     (ScaledBy hWitness 0 2).2 ≠ IXRef.nativeRef 0) :=
  ⟨by decide, location_immutable hWitness 0 IXRef.nullRef 2 (by decide)⟩

/-- Witness for C7 at the concrete heap with scale `2`. -/
theorem scaledBy_roundtrip_witness :
    (2 : ℚ) ≠ 0 ∧
    ((ScaledBy (ScaledBy hWitness 0 2).1 hWitness.objs.length (1 / 2)).2
        = IXRef.nativeRef (hWitness.objs.length + 1) ∧
     (ScaledBy (ScaledBy hWitness 0 2).1 hWitness.objs.length (1 / 2)).1.refOf
         (hWitness.objs.length + 1)
       = hWitness.refOf 0) :=
  ⟨by norm_num, scaledBy_roundtrip hWitness 0 2 (by norm_num)⟩

/-- Witness for C8 at the concrete heap with a native argument. -/
theorem results_fresh_never_null_witness :
    0 < hWitness.objs.length ∧
    ((Multiplied hWitness 0 (IXRef.nativeRef 1)).2 ≠ IXRef.nullRef ∧
     (ScaledBy hWitness 0 3).2 ≠ IXRef.nullRef ∧
     (Multiplied hWitness 0 (IXRef.nativeRef 1)).2 ≠ IXRef.nativeRef 0 ∧
     (ScaledBy hWitness 0 3).2 ≠ IXRef.nativeRef 0 ∧
     (∀ a, IXRef.nativeRef 1 = IXRef.nativeRef a → a < hWitness.objs.length →
       (Multiplied hWitness 0 (IXRef.nativeRef 1)).2 ≠ IXRef.nativeRef a)) :=
  ⟨by decide,
    results_fresh_never_null hWitness 0 (IXRef.nativeRef 1) 3 (by decide)⟩

/-- Witness for C9 at the concrete heap: argument at index `1`. -/
theorem multiplied_preserves_argument_witness :
    1 < hWitness.objs.length ∧
    ((Multiplied hWitness 0 (IXRef.nativeRef 1)).1.refOf 1 = hWitness.refOf 1 ∧
     ((Multiplied hWitness 0 (IXRef.nativeRef 1)).1.refOf 1).IsIdentity
       = (hWitness.refOf 1).IsIdentity) :=
  ⟨by decide, multiplied_preserves_argument hWitness 0 1 (by decide)⟩

/-- Witness for C10: the same receiver transform stored in two different
heaps, with null arguments and equal scales, yields equal result
transforms. -/
theorem operations_deterministic_witness :
    hWitnessSmall.refOf 0 = hWitness.refOf 0 ∧
    ((IXRef.nullRef = IXRef.nullRef ∨
        ∃ t, IXRef.nullRef = IXRef.foreignRef t) ∧
     (IXRef.nullRef = IXRef.nullRef ∨
        ∃ t, IXRef.nullRef = IXRef.foreignRef t)) ∧
    (3 : ℚ) = 3 ∧
    ((Multiplied hWitnessSmall 0 IXRef.nullRef).1.refOf
        hWitnessSmall.objs.length
       = (Multiplied hWitness 0 IXRef.nullRef).1.refOf hWitness.objs.length ∧
     (ScaledBy hWitnessSmall 0 3).1.refOf hWitnessSmall.objs.length
       = (ScaledBy hWitness 0 3).1.refOf hWitness.objs.length) :=
  ⟨rfl, ⟨Or.inl rfl, Or.inl rfl⟩, rfl,
    operations_deterministic hWitnessSmall hWitness 0 0 IXRef.nullRef
      IXRef.nullRef 3 3 rfl (Or.inl ⟨Or.inl rfl, Or.inl rfl⟩) rfl⟩

end XbimGeometry
